import Mathlib

/-!
Shallow embedding of the matching engine of the ai-job-matcher repository:
the `JobPosting` record of src/app/models.py and the `JobMatcher` pipeline of
src/app/matcher.py (`_calculate_similarity_scores`, `_score_job_with_llm`,
`match_jobs`).  Machine floats of the source are idealised as exact rationals;
Python strings are processed over their character lists; the two external
backends (OpenAI embeddings and the chat model) enter as explicit numeric and
textual inputs.
-/

/-- Record following `JobPosting` in src/app/models.py (lines 237-303).
Enumerated fields (`contract_type`) and the `date` field are carried as their
string values (`use_enum_values = True` is set on the model); float fields are
idealised as rationals.  `match_score` and `match_explanation` are the two
fields the matching engine writes. -/
structure JobPosting where
  job_title : String
  company_name : String
  description : String
  location : String
  job_url : String
  redirect_url : Option String := none
  posted_date : Option String := none
  contract_type : Option String := none
  category : Option String := none
  salary_min : Option ℚ := none
  salary_max : Option ℚ := none
  salary_currency : Option String := none
  match_score : Option ℚ := none
  match_explanation : Option String := none
  required_skills : Option (List String) := none
  adzuna_job_id : Option String := none
deriving DecidableEq

/-- Configuration bits of src/app/config.py consulted by `match_jobs`
(only `settings.use_llm_scoring` is read there). -/
structure MatcherConfig where
  use_llm_scoring : Bool
deriving DecidableEq

/-- Characters removed by Python `str.strip()` with no argument. -/
def isPySpace (c : Char) : Bool :=
  c == ' ' || c == '\t' || c == '\n' || c == '\r' || c == '\x0b' || c == '\x0c'

/-- Python `str.strip()` on a character list: drop whitespace at both ends. -/
def pyStrip (cs : List Char) : List Char :=
  ((cs.dropWhile isPySpace).reverse.dropWhile isPySpace).reverse

/-- Python `str.split(sep)` for a one-character separator, as used for
`response_text.split` on newline in `_score_job_with_llm` (line 215). -/
def splitOnChar (sep : Char) : List Char → List (List Char)
  | [] => [[]]
  | c :: cs =>
    if c == sep then [] :: splitOnChar sep cs
    else
      match splitOnChar sep cs with
      | [] => [[c]]
      | l :: ls => (c :: l) :: ls

/-- Characters before the first occurrence of `sep` as a contiguous substring. -/
def takeUntilSep (sep : List Char) : List Char → List Char
  | [] => []
  | c :: cs => if sep.isPrefixOf (c :: cs) then [] else c :: takeUntilSep sep cs

/-- Python `line.split(sep)[1]` for a line that starts with `sep` (the use at
lines 219 and 224 of src/app/matcher.py, guarded by `line.startswith(...)`):
the segment strictly between the first and the second occurrence of `sep`. -/
def segmentAfterTag (sep : List Char) (line : List Char) : List Char :=
  takeUntilSep sep (line.drop sep.length)

/-- Numeric value of a digit list, most significant first. -/
def natOfDigits (cs : List Char) : ℕ :=
  cs.foldl (fun n c => 10 * n + (c.toNat - 48)) 0

/-- Modelled from the Python builtin `float(s)` on finite decimal literals:
optional surrounding whitespace, optional sign, digits with at most one dot
(at least one digit overall), optional e/E exponent with optional sign.  The
additional spellings Python accepts (`inf`, `nan`, digit underscores) are not
exercised by any behaviour the spec describes.  Returns `none` where Python
raises `ValueError`. -/
def parsePyFloat (s : List Char) : Option ℚ :=
  let cs := pyStrip s
  let signed : Bool × List Char :=
    match cs with
    | '+' :: rest => (false, rest)
    | '-' :: rest => (true, rest)
    | rest => (false, rest)
  let neg := signed.1
  let body := signed.2
  let mant := body.takeWhile (fun c => !(c == 'e' || c == 'E'))
  let erest := body.dropWhile (fun c => !(c == 'e' || c == 'E'))
  let ip := mant.takeWhile (fun c => !(c == '.'))
  let dotrest := mant.dropWhile (fun c => !(c == '.'))
  let frac := match dotrest with
    | [] => ([] : List Char)
    | _ :: fr => fr
  if ip.all Char.isDigit && frac.all Char.isDigit && !(ip.isEmpty && frac.isEmpty) then
    let magnitude : ℚ := (natOfDigits (ip ++ frac) : ℚ) / (10 : ℚ) ^ frac.length
    let value : ℚ := if neg then -magnitude else magnitude
    match erest with
    | [] => some value
    | _ :: ecs =>
      let esigned : Bool × List Char :=
        match ecs with
        | '+' :: rest => (false, rest)
        | '-' :: rest => (true, rest)
        | rest => (false, rest)
      if !esigned.2.isEmpty && esigned.2.all Char.isDigit then
        let e := natOfDigits esigned.2
        some (if esigned.1 then value / (10 : ℚ) ^ e else value * (10 : ℚ) ^ e)
      else none
  else none

/-- Tag recognised by `line.startswith` with the score tag (matcher.py line 217). -/
def scoreTag : List Char := "SCORE:".toList

/-- Tag recognised by `line.startswith` with the explanation tag (matcher.py line 223). -/
def explanationTag : List Char := "EXPLANATION:".toList

/-- Initial value of `explanation` in `_score_job_with_llm` (line 213), kept
whenever no explanation line is recognised. -/
def fallbackExplanation : String := "Unable to generate explanation"

/-- One iteration of the response-parsing loop of `_score_job_with_llm`
(lines 215-224).  The accumulator carries the current (score, explanation).
A line recognised as a score line is parsed as a float and clamped into
[0, 100]; a `ValueError` from `float` leaves the previous score (the loop only
logs a warning).  A line recognised as an explanation line replaces the
explanation with the stripped remainder. -/
def parseResponseLine (acc : ℚ × String) (rawLine : List Char) : ℚ × String :=
  if scoreTag.isPrefixOf (pyStrip rawLine) then
    match parsePyFloat (pyStrip (segmentAfterTag scoreTag (pyStrip rawLine))) with
    | some v => (max 0 (min 100 v), acc.2)
    | none => acc
  else if explanationTag.isPrefixOf (pyStrip rawLine) then
    (acc.1, String.mk (pyStrip (segmentAfterTag explanationTag (pyStrip rawLine))))
  else acc

/-- Parse of a full backend response in `_score_job_with_llm` (lines 208-227):
fold the line parser over the newline-split response starting from score 0 and
the fixed fallback explanation. -/
def parseLLMResponse (response_text : String) : ℚ × String :=
  (splitOnChar '\n' response_text.toList).foldl parseResponseLine (0, fallbackExplanation)

/-- Model of `JobMatcher._score_job_with_llm` (matcher.py lines 133-231).
The downstream chat-model call is an external effect; its outcome is passed in
as `response`: `Except.error e` when `chain.invoke` raises (any exception),
`Except.ok txt` when it returns with `response.content = txt`.  The
`except Exception` handler at lines 229-231 returns score 0 with the fixed
failure explanation. -/
def score_job_with_llm (response : Except String String) : ℚ × String :=
  match response with
  | Except.error _ => (0, "Scoring failed")
  | Except.ok txt => parseLLMResponse txt

/-- Round to an integer with ties to even, the tie rule of Python `round`. -/
def roundHalfEven (x : ℚ) : ℤ :=
  if x - ⌊x⌋ < 1 / 2 then ⌊x⌋
  else if 1 / 2 < x - ⌊x⌋ then ⌊x⌋ + 1
  else if 2 ∣ ⌊x⌋ then ⌊x⌋ else ⌊x⌋ + 1

/-- Python `round(x, 2)` on the idealised rational value. -/
def round2 (x : ℚ) : ℚ := (roundHalfEven (x * 100) : ℚ) / 100

/-- Descending sort of a list of rationals. -/
def sortDescQ (l : List ℚ) : List ℚ :=
  l.insertionSort (fun a b => b ≤ a)

/-- Model of `JobMatcher._calculate_similarity_scores` (matcher.py lines
100-131), taken at the point where the per-job cosine similarities are
determined: `sims` lists, in input-job order, the inner product of the
L2-normalised resume embedding with the L2-normalised embedding of each job
(float arithmetic idealised over ℚ; the vectors themselves are external
OpenAI outputs).  `faiss.IndexFlatIP.search` with `k = len(job_embeddings)`
returns the score array `D` sorted by decreasing inner product together with
the index array `I` recording which job achieved each score; line 129 keeps
only the scores (`similarities, _ = index.search(...)`) and line 131 returns
`similarities[0].tolist()`.  The returned list is therefore the descending
sort of `sims` (a descending-sorted list of rationals is unique for given
contents, so no tie policy of faiss is relied on). -/
def calculate_similarity_scores (sims : List ℚ) : List ℚ :=
  sortDescQ sims

/-- Sort key shared by the two sorts of `match_jobs`: line 279 uses
`j.match_score` (set for every job at that point) and line 303 uses
`j.match_score or 0`; both coincide with the 0-defaulted score. -/
def scoreKey (j : JobPosting) : ℚ := j.match_score.getD 0

/-- Python `sorted(l, key=lambda j: ..., reverse=True)` (lines 279 and 303):
the stable descending sort by `scoreKey`.  A stable sort for a total preorder
is unique as a function, so Timsort is modelled by the (stable) insertion
sort. -/
def sortByScoreDesc (l : List JobPosting) : List JobPosting :=
  l.insertionSort (fun a b => scoreKey b ≤ scoreKey a)

/-- Lines 274-276 of matcher.py: store the similarity as a percentage,
`job.match_score = round(similarity * 100, 2)`. -/
def assignSimilarity (j : JobPosting) (similarity : ℚ) : JobPosting :=
  { j with match_score := some (round2 (similarity * 100)) }

/-- Rendering of a float inside the explanation prefix f-string (line 298).
The decimal float formatting of Python is abstracted to the string form of
the rational; no verified property depends on the rendered digits. -/
def renderQ (q : ℚ) : String := toString q

/-- Rendering of the saved `similarity_score` (an `Option` field) in the
explanation prefix. -/
def renderOptQ : Option ℚ → String
  | some q => renderQ q
  | none => "None"

/-- Lines 289-300 of matcher.py, the body of the rescoring loop for one job:
overwrite `match_score` with the LLM score and `match_explanation` with the
bracketed similarity/LLM prefix followed by the returned explanation. -/
def rescoreJob (result : ℚ × String) (j : JobPosting) : JobPosting :=
  { j with
    match_score := some result.1,
    match_explanation := some ("[Similarity: " ++ renderOptQ j.match_score ++
      "% | LLM Score: " ++ renderQ result.1 ++ "%]\n\n" ++ result.2) }

/-- The loop at line 287 over `jobs_ranked[:top_n_for_llm]`: the i-th
iteration rescores one job with the outcome of the i-th downstream call.
`oracle i` is that outcome (the calls are external effects). -/
def rescoreFrom (oracle : ℕ → Except String String) : ℕ → List JobPosting → List JobPosting
  | _, [] => []
  | i, j :: js => rescoreJob (score_job_with_llm (oracle i)) j :: rescoreFrom oracle (i + 1) js

/-- Step 5 of `match_jobs` (lines 284-300): rescore the first `top_n` jobs of
the ranked list in place; the remaining jobs are untouched. -/
def llmRescoreStage (oracle : ℕ → Except String String) (top_n : ℕ)
    (ranked : List JobPosting) : List JobPosting :=
  rescoreFrom oracle 0 (ranked.take top_n) ++ ranked.drop top_n

/-- Steps 3-4 of `match_jobs` (matcher.py lines 271-279): assign
`round(similarity * 100, 2)` to each job by position (the `zip` at line 274
pairs input order with the list returned by `_calculate_similarity_scores`;
as in Python, `zip` stops at the shorter sequence and the remaining jobs keep
their previous fields), then sort by score descending (line 279). -/
def rankBySimilarity (sims : List ℚ) (jobs : List JobPosting) : List JobPosting :=
  sortByScoreDesc
    (List.zipWith assignSimilarity jobs (calculate_similarity_scores sims) ++
      jobs.drop (calculate_similarity_scores sims).length)

/-- Model of `JobMatcher.match_jobs` (matcher.py lines 233-309).  The external
effects enter as data: `sims` is the list of per-job cosine similarities in
input order (see `calculate_similarity_scores`) and `oracle i` is the outcome
of the i-th downstream chat call of the rescoring loop.  The `Except` codomain
is the Python raise/return channel; no statement in this function raises, and
the guard at lines 250-252 returns the ordinary empty list.  After the
similarity ranking, the top `top_n_for_llm` jobs are rescored and the batch
re-sorted when LLM scoring is enabled (lines 284-303); otherwise the
similarity-ranked batch is returned as is. -/
def match_jobs (cfg : MatcherConfig) (oracle : ℕ → Except String String)
    (sims : List ℚ) (jobs : List JobPosting) (top_n_for_llm : ℕ) :
    Except String (List JobPosting) :=
  if jobs.isEmpty then Except.ok [] else
  if cfg.use_llm_scoring then
    Except.ok (sortByScoreDesc
      (llmRescoreStage oracle top_n_for_llm (rankBySimilarity sims jobs)))
  else
    Except.ok (rankBySimilarity sims jobs)

/-- Forget the two fields the matching engine writes; what remains identifies
the job record across the pipeline. -/
def stripMatch (j : JobPosting) : JobPosting :=
  { j with match_score := none, match_explanation := none }

/-! Concrete fixtures used by the concrete-input theorems and witnesses. -/

/-- A concrete job record. -/
def jobA : JobPosting :=
  { job_title := "Alpha", company_name := "AC", description := "python sql",
    location := "L1", job_url := "u1" }

/-- A second concrete job record, distinct from `jobA`. -/
def jobB : JobPosting :=
  { job_title := "Beta", company_name := "BC", description := "truck driving",
    location := "L2", job_url := "u2" }

/-- An oracle whose calls all return an empty response. -/
def silentOracle : ℕ → Except String String := fun _ => Except.ok ""

/-- An oracle whose calls all return a well-formed scoring response. -/
def oracleScore80 : ℕ → Except String String :=
  fun _ => Except.ok "SCORE: 80\nEXPLANATION: ok"

/-! Helper lemmas about the embedded pipeline. -/

lemma round2_hundred : round2 100 = 100 := by norm_num [round2, roundHalfEven]

lemma round2_zero : round2 0 = 0 := by norm_num [round2, roundHalfEven]

lemma stripMatch_assignSimilarity (j : JobPosting) (s : ℚ) :
    stripMatch (assignSimilarity j s) = stripMatch j := rfl

lemma stripMatch_rescoreJob (r : ℚ × String) (j : JobPosting) :
    stripMatch (rescoreJob r j) = stripMatch j := rfl

lemma sortByScoreDesc_perm (l : List JobPosting) : (sortByScoreDesc l).Perm l :=
  List.perm_insertionSort _ l

lemma sortDescQ_perm (l : List ℚ) : (sortDescQ l).Perm l :=
  List.perm_insertionSort _ l

lemma sortDescQ_length (l : List ℚ) : (sortDescQ l).length = l.length :=
  (sortDescQ_perm l).length_eq

lemma map_stripMatch_scored :
    ∀ (jobs : List JobPosting) (ss : List ℚ),
      (List.zipWith assignSimilarity jobs ss ++ jobs.drop ss.length).map stripMatch =
        jobs.map stripMatch
  | [], _ => by simp
  | _ :: _, [] => by simp
  | j :: js, s :: ssr => by
    simpa [stripMatch_assignSimilarity] using map_stripMatch_scored js ssr

lemma map_stripMatch_rescoreFrom (oracle : ℕ → Except String String) :
    ∀ (i : ℕ) (l : List JobPosting),
      (rescoreFrom oracle i l).map stripMatch = l.map stripMatch
  | _, [] => rfl
  | i, j :: js => by
    simpa [rescoreFrom, stripMatch_rescoreJob] using
      map_stripMatch_rescoreFrom oracle (i + 1) js

lemma map_stripMatch_llmRescoreStage (oracle : ℕ → Except String String)
    (top_n : ℕ) (ranked : List JobPosting) :
    (llmRescoreStage oracle top_n ranked).map stripMatch = ranked.map stripMatch := by
  have h := map_stripMatch_rescoreFrom oracle 0 (ranked.take top_n)
  calc (llmRescoreStage oracle top_n ranked).map stripMatch
      = (rescoreFrom oracle 0 (ranked.take top_n)).map stripMatch ++
          (ranked.drop top_n).map stripMatch := by
        simp [llmRescoreStage]
    _ = (ranked.take top_n).map stripMatch ++ (ranked.drop top_n).map stripMatch := by
        rw [h]
    _ = ranked.map stripMatch := by
        rw [← List.map_append, List.take_append_drop]

lemma rescoreFrom_length (oracle : ℕ → Except String String) :
    ∀ (i : ℕ) (l : List JobPosting), (rescoreFrom oracle i l).length = l.length
  | _, [] => rfl
  | i, _ :: js => by simpa [rescoreFrom] using rescoreFrom_length oracle (i + 1) js

lemma llmRescoreStage_length (oracle : ℕ → Except String String)
    (top_n : ℕ) (ranked : List JobPosting) :
    (llmRescoreStage oracle top_n ranked).length = ranked.length := by
  simp [llmRescoreStage, rescoreFrom_length]
  omega

lemma scored_length (jobs : List JobPosting) (ss : List ℚ) :
    (List.zipWith assignSimilarity jobs ss ++ jobs.drop ss.length).length = jobs.length := by
  simp
  omega

/-- The strip-projection of `rankBySimilarity` is a permutation of the
strip-projection of the input batch. -/
lemma rankBySimilarity_strip_perm (sims : List ℚ) (jobs : List JobPosting) :
    ((rankBySimilarity sims jobs).map stripMatch).Perm (jobs.map stripMatch) := by
  have h := (sortByScoreDesc_perm
    (List.zipWith assignSimilarity jobs (calculate_similarity_scores sims) ++
      jobs.drop (calculate_similarity_scores sims).length)).map stripMatch
  rw [map_stripMatch_scored] at h
  exact h

/-- The strip-projection of the output of `match_jobs` is a permutation of the
strip-projection of the input batch (shared backbone of several claims). -/
lemma match_jobs_strip_perm (cfg : MatcherConfig) (oracle : ℕ → Except String String)
    (sims : List ℚ) (jobs : List JobPosting) (n : ℕ) (out : List JobPosting)
    (hok : match_jobs cfg oracle sims jobs n = Except.ok out) :
    (out.map stripMatch).Perm (jobs.map stripMatch) := by
  by_cases hje : jobs.isEmpty
  · have hjobs : jobs = [] := List.isEmpty_iff.mp hje
    have hout : out = [] := by
      simpa [match_jobs, hje] using hok
    simp [hjobs, hout]
  · by_cases hllm : cfg.use_llm_scoring
    · have hout : sortByScoreDesc
          (llmRescoreStage oracle n (rankBySimilarity sims jobs)) = out := by
        simpa [match_jobs, hje, hllm] using hok
      subst hout
      have h1 := (sortByScoreDesc_perm
        (llmRescoreStage oracle n (rankBySimilarity sims jobs))).map stripMatch
      rw [map_stripMatch_llmRescoreStage] at h1
      exact h1.trans (rankBySimilarity_strip_perm sims jobs)
    · have hout : rankBySimilarity sims jobs = out := by
        simpa [match_jobs, hje, hllm] using hok
      subst hout
      exact rankBySimilarity_strip_perm sims jobs

/-- Length preservation of `match_jobs` (shared backbone). -/
lemma match_jobs_length (cfg : MatcherConfig) (oracle : ℕ → Except String String)
    (sims : List ℚ) (jobs : List JobPosting) (n : ℕ) (out : List JobPosting)
    (hok : match_jobs cfg oracle sims jobs n = Except.ok out) :
    out.length = jobs.length := by
  have h := (match_jobs_strip_perm cfg oracle sims jobs n out hok).length_eq
  simpa using h

lemma of_mem_zipWith {α β γ : Type} {f : α → β → γ} :
    ∀ {as : List α} {bs : List β} {x : γ},
      x ∈ List.zipWith f as bs → ∃ a ∈ as, ∃ b ∈ bs, x = f a b
  | [], _, _, h => by simp at h
  | _ :: _, [], _, h => by simp at h
  | a :: as, b :: bs, x, h => by
    rcases List.mem_cons.mp h with h | h
    · exact ⟨a, by simp, b, by simp, h⟩
    · rcases of_mem_zipWith h with ⟨a', ha, b', hb, hx⟩
      exact ⟨a', by simp [ha], b', by simp [hb], hx⟩

lemma of_mem_rescoreFrom (oracle : ℕ → Except String String) :
    ∀ {i : ℕ} {l : List JobPosting} {x : JobPosting},
      x ∈ rescoreFrom oracle i l →
      ∃ i', ∃ j ∈ l, x = rescoreJob (score_job_with_llm (oracle i')) j
  | _, [], _, h => by simp [rescoreFrom] at h
  | i, j :: js, x, h => by
    rcases List.mem_cons.mp h with h | h
    · exact ⟨i, j, by simp, h⟩
    · rcases of_mem_rescoreFrom oracle h with ⟨i', j', hj, hx⟩
      exact ⟨i', j', by simp [hj], hx⟩

lemma scoreKey_assignSimilarity (j : JobPosting) (s : ℚ) :
    scoreKey (assignSimilarity j s) = round2 (s * 100) := rfl

lemma scoreKey_rescoreJob (r : ℚ × String) (j : JobPosting) :
    scoreKey (rescoreJob r j) = r.1 := rfl

lemma floor_le_roundHalfEven (x : ℚ) : ⌊x⌋ ≤ roundHalfEven x := by
  unfold roundHalfEven
  split_ifs <;> omega

lemma roundHalfEven_le_ceil (x : ℚ) : roundHalfEven x ≤ ⌈x⌉ := by
  unfold roundHalfEven
  split_ifs with h1 h2 h3
  · exact Int.floor_le_ceil x
  · have hx : (⌊x⌋ : ℚ) < x := by linarith
    have := Int.lt_ceil.mpr hx
    omega
  · exact Int.floor_le_ceil x
  · have h4 := not_lt.mp h1
    have hx : (⌊x⌋ : ℚ) < x := by linarith
    have := Int.lt_ceil.mpr hx
    omega

lemma round2_bounds {x : ℚ} (h0 : 0 ≤ x) (h1 : x ≤ 100) :
    0 ≤ round2 x ∧ round2 x ≤ 100 := by
  have hfl : (0 : ℤ) ≤ ⌊x * 100⌋ := Int.le_floor.mpr (by push_cast; nlinarith)
  have hcl : ⌈x * 100⌉ ≤ (10000 : ℤ) := Int.ceil_le.mpr (by push_cast; nlinarith)
  have hlo := floor_le_roundHalfEven (x * 100)
  have hhi := roundHalfEven_le_ceil (x * 100)
  have hlo' : (0 : ℤ) ≤ roundHalfEven (x * 100) := le_trans hfl hlo
  have hhi' : roundHalfEven (x * 100) ≤ (10000 : ℤ) := le_trans hhi hcl
  have hlo'' : (0 : ℚ) ≤ (roundHalfEven (x * 100) : ℚ) := by exact_mod_cast hlo'
  have hhi'' : ((roundHalfEven (x * 100) : ℚ)) ≤ 10000 := by exact_mod_cast hhi'
  constructor
  · unfold round2
    positivity
  · unfold round2
    rw [div_le_iff₀ (by norm_num : (0 : ℚ) < 100)]
    linarith

lemma parseResponseLine_fst_bounds (acc : ℚ × String) (line : List Char)
    (h0 : 0 ≤ acc.1) (h1 : acc.1 ≤ 100) :
    0 ≤ (parseResponseLine acc line).1 ∧ (parseResponseLine acc line).1 ≤ 100 := by
  unfold parseResponseLine
  split_ifs with hs he
  · cases hp : parsePyFloat (pyStrip (segmentAfterTag scoreTag (pyStrip line))) with
    | none => simpa [hp] using ⟨h0, h1⟩
    | some v =>
      simp only [hp]
      exact ⟨le_max_left _ _, max_le (by norm_num) (min_le_left _ _)⟩
  · exact ⟨h0, h1⟩
  · exact ⟨h0, h1⟩

lemma foldl_parseResponseLine_fst_bounds :
    ∀ (lines : List (List Char)) (acc : ℚ × String),
      0 ≤ acc.1 → acc.1 ≤ 100 →
      0 ≤ (lines.foldl parseResponseLine acc).1 ∧
        (lines.foldl parseResponseLine acc).1 ≤ 100
  | [], _, h0, h1 => ⟨h0, h1⟩
  | line :: rest, acc, h0, h1 => by
    have h := parseResponseLine_fst_bounds acc line h0 h1
    simpa using foldl_parseResponseLine_fst_bounds rest (parseResponseLine acc line) h.1 h.2

lemma score_job_with_llm_fst_bounds (r : Except String String) :
    0 ≤ (score_job_with_llm r).1 ∧ (score_job_with_llm r).1 ≤ 100 := by
  cases r with
  | error e =>
    constructor <;> norm_num [score_job_with_llm]
  | ok txt =>
    exact foldl_parseResponseLine_fst_bounds _ (0, fallbackExplanation) (le_refl 0) (by norm_num)

/-- Every job in the similarity-ranked list carries a score bounded as its
(sorted, hence permuted) similarity input dictates, provided every similarity
lies in [0, 1] and the score list covers the whole batch. -/
lemma rankBySimilarity_score_bounds (sims : List ℚ) (jobs : List JobPosting)
    (hsims : ∀ s ∈ sims, 0 ≤ s ∧ s ≤ 1) (hlen : sims.length = jobs.length) :
    ∀ j ∈ rankBySimilarity sims jobs, 0 ≤ scoreKey j ∧ scoreKey j ≤ 100 := by
  intro j hj
  have hlen' : (calculate_similarity_scores sims).length = jobs.length := by
    rw [← hlen]
    exact sortDescQ_length sims
  have hdrop : jobs.drop (calculate_similarity_scores sims).length = [] := by
    rw [hlen']
    exact List.drop_length jobs
  have hj' : j ∈ List.zipWith assignSimilarity jobs (calculate_similarity_scores sims) := by
    have hmem := (sortByScoreDesc_perm _).mem_iff.mp hj
    rw [hdrop, List.append_nil] at hmem
    exact hmem
  rcases of_mem_zipWith hj' with ⟨a, _, s, hs, hx⟩
  have hs' : s ∈ sims := (sortDescQ_perm sims).mem_iff.mp hs
  rcases hsims s hs' with ⟨hs0, hs1⟩
  have hb := round2_bounds (x := s * 100) (by linarith) (by linarith)
  rw [hx, scoreKey_assignSimilarity]
  exact hb

/-- Score bounds for the output of `match_jobs` whenever every similarity lies
in [0, 1] and the similarity list covers the whole batch: rescored jobs carry
a clamped LLM score and the rest carry their similarity percentage. -/
lemma match_jobs_score_bounds (cfg : MatcherConfig) (oracle : ℕ → Except String String)
    (sims : List ℚ) (jobs : List JobPosting) (n : ℕ) (out : List JobPosting)
    (hsims : ∀ s ∈ sims, 0 ≤ s ∧ s ≤ 1) (hlen : sims.length = jobs.length)
    (hok : match_jobs cfg oracle sims jobs n = Except.ok out) :
    ∀ j ∈ out, 0 ≤ scoreKey j ∧ scoreKey j ≤ 100 := by
  intro j hj
  have hrank := rankBySimilarity_score_bounds sims jobs hsims hlen
  by_cases hje : jobs.isEmpty
  · have hout : out = [] := by simpa [match_jobs, hje] using hok
    rw [hout] at hj
    simp at hj
  · by_cases hllm : cfg.use_llm_scoring
    · have hout : sortByScoreDesc
          (llmRescoreStage oracle n (rankBySimilarity sims jobs)) = out := by
        simpa [match_jobs, hje, hllm] using hok
      rw [← hout] at hj
      have hj2 := (sortByScoreDesc_perm _).mem_iff.mp hj
      rcases List.mem_append.mp hj2 with hj3 | hj3
      · rcases of_mem_rescoreFrom oracle hj3 with ⟨i', j', _, hx⟩
        rw [hx, scoreKey_rescoreJob]
        exact score_job_with_llm_fst_bounds (oracle i')
      · exact hrank j (List.mem_of_mem_drop hj3)
    · have hout : rankBySimilarity sims jobs = out := by
        simpa [match_jobs, hje, hllm] using hok
      rw [← hout] at hj
      exact hrank j hj

/-- Position-wise description of the rescoring loop: the element at position k
is the rescoring of the input element at position k with the (start + k)-th
oracle outcome. -/
lemma rescoreFrom_getElem? (oracle : ℕ → Except String String) :
    ∀ (l : List JobPosting) (i0 k : ℕ),
      (rescoreFrom oracle i0 l)[k]? =
        (l[k]?).map (fun j => rescoreJob (score_job_with_llm (oracle (i0 + k))) j)
  | [], i0, k => by simp [rescoreFrom]
  | j :: js, i0, 0 => by simp [rescoreFrom]
  | j :: js, i0, k + 1 => by
    have ih := rescoreFrom_getElem? oracle js (i0 + 1) k
    have harith : i0 + 1 + k = i0 + (k + 1) := by omega
    simpa [rescoreFrom, harith] using ih

/-- Below the rescoring cutoff, the stage output at position k is exactly the
ranked job at position k rescored with the k-th oracle outcome. -/
lemma llmRescoreStage_getElem?_lt (oracle : ℕ → Except String String)
    (top_n : ℕ) (ranked : List JobPosting) (k : ℕ) (hk : k < top_n) :
    (llmRescoreStage oracle top_n ranked)[k]? =
      (ranked[k]?).map (fun j => rescoreJob (score_job_with_llm (oracle k)) j) := by
  unfold llmRescoreStage
  by_cases hkl : k < ranked.length
  · have hlen : (rescoreFrom oracle 0 (ranked.take top_n)).length =
        min top_n ranked.length := by
      rw [rescoreFrom_length]
      exact List.length_take top_n ranked
    have hklt : k < (rescoreFrom oracle 0 (ranked.take top_n)).length := by omega
    rw [List.getElem?_append_left hklt, rescoreFrom_getElem? oracle (ranked.take top_n) 0 k]
    rw [List.getElem?_take]
    simp [hk]
  · have hnone : ranked[k]? = none := List.getElem?_eq_none (by omega)
    have hlen2 : (rescoreFrom oracle 0 (ranked.take top_n) ++ ranked.drop top_n).length =
        ranked.length := by
      rw [List.length_append, rescoreFrom_length]
      simp
      omega
    have hnone2 : (rescoreFrom oracle 0 (ranked.take top_n) ++ ranked.drop top_n)[k]? =
        none := List.getElem?_eq_none (by omega)
    rw [hnone, hnone2]
    rfl

/-- A line that is not recognised as a score line leaves the score component
of the parsing accumulator unchanged. -/
lemma parseResponseLine_fst_of_no_score (acc : ℚ × String) (line : List Char)
    (h : scoreTag.isPrefixOf (pyStrip line) = false) :
    (parseResponseLine acc line).1 = acc.1 := by
  unfold parseResponseLine
  rw [h]
  by_cases he : explanationTag.isPrefixOf (pyStrip line) <;> simp [he]

/-- A line recognised neither as a score line nor as an explanation line
leaves the parsing accumulator unchanged. -/
lemma parseResponseLine_of_no_field (acc : ℚ × String) (line : List Char)
    (hs : scoreTag.isPrefixOf (pyStrip line) = false)
    (he : explanationTag.isPrefixOf (pyStrip line) = false) :
    parseResponseLine acc line = acc := by
  unfold parseResponseLine
  rw [hs, he]
  simp

lemma foldl_parseResponseLine_fst_of_no_score :
    ∀ (lines : List (List Char)) (acc : ℚ × String),
      (∀ line ∈ lines, scoreTag.isPrefixOf (pyStrip line) = false) →
      (lines.foldl parseResponseLine acc).1 = acc.1
  | [], _, _ => rfl
  | line :: rest, acc, h => by
    have h1 := parseResponseLine_fst_of_no_score acc line (h line (by simp))
    have h2 := foldl_parseResponseLine_fst_of_no_score rest (parseResponseLine acc line)
      (fun l hl => h l (by simp [hl]))
    simpa [h1] using h2

lemma foldl_parseResponseLine_of_no_field :
    ∀ (lines : List (List Char)) (acc : ℚ × String),
      (∀ line ∈ lines, scoreTag.isPrefixOf (pyStrip line) = false) →
      (∀ line ∈ lines, explanationTag.isPrefixOf (pyStrip line) = false) →
      lines.foldl parseResponseLine acc = acc
  | [], _, _, _ => rfl
  | line :: rest, acc, hs, he => by
    have h1 := parseResponseLine_of_no_field acc line (hs line (by simp)) (he line (by simp))
    have h2 := foldl_parseResponseLine_of_no_field rest (parseResponseLine acc line)
      (fun l hl => hs l (by simp [hl])) (fun l hl => he l (by simp [hl]))
    rw [h1] at h2
    rw [List.foldl_cons, h1]
    exact h2

lemma eq_update_of_stripMatch_eq {j j0 : JobPosting} (h : stripMatch j = stripMatch j0) :
    j = { j0 with match_score := j.match_score, match_explanation := j.match_explanation } := by
  cases j
  cases j0
  simp_all [stripMatch]

lemma match_jobs_exists_ok (cfg : MatcherConfig) (oracle : ℕ → Except String String)
    (sims : List ℚ) (jobs : List JobPosting) (n : ℕ) :
    ∃ out, match_jobs cfg oracle sims jobs n = Except.ok out := by
  unfold match_jobs
  split_ifs <;> exact ⟨_, rfl⟩

/-! Claim theorems. -/

/-- C1: the claim states that the similarity-scoring stage returns scores
parallel in order to the input job sequence (the i-th score belonging to the
i-th job).  The code instead returns the faiss search result, which is the
descending sort of the per-job cosine similarities with the pairing indices
discarded: on the cosine input [0, 1] (job 0 has cosine 0, job 1 has cosine 1)
the stage returns [1, 0], pairing job 0 with the score of job 1. -/
theorem C1_similarity_scores_not_parallel :
    calculate_similarity_scores [0, 1] = [1, 0] ∧
    calculate_similarity_scores [0, 1] ≠ [0, 1] := by
  constructor
  · decide
  · decide

/-- C2 counterexample: on an empty job batch `match_jobs` returns normally
with the ordinary empty list (no error is raised), contradicting the claim
that the run fails with a fatal, caller-distinguishable error. -/
theorem C2_counterexample_empty_batch_returns_ok :
    match_jobs ⟨true⟩ silentOracle [] [] 10 = Except.ok [] := by
  simp [match_jobs]

/-- C2 amended: for every call to `match_jobs` with an empty job batch the run
returns normally with an empty ranked list (after a warning log), a value not
distinguishable from a successful run with zero results. -/
theorem C2_amended_empty_batch_returns_empty :
    ∀ (cfg : MatcherConfig) (oracle : ℕ → Except String String) (sims : List ℚ) (n : ℕ),
      match_jobs cfg oracle sims [] n = Except.ok [] := by
  intro cfg oracle sims n
  simp [match_jobs]

/-- C3 counterexample: a job whose cosine similarity is negative (cosine
similarity ranges over [-1, 1]) keeps the unclamped similarity percentage as
its final score; with the single-job batch of cosine -1/2 and rescoring
disabled the returned final score is -50, outside [0, 100] (and outside the
declared `ge=0` bound of `JobPosting.match_score`). -/
theorem C3_counterexample_negative_similarity :
    match_jobs ⟨false⟩ silentOracle [-(1 / 2)] [jobA] 10 =
      Except.ok [{ jobA with match_score := some (-50) }] ∧
    ((-50 : ℚ) < 0) := by
  constructor
  · simp +decide [match_jobs, rankBySimilarity, calculate_similarity_scores, sortDescQ,
      List.insertionSort, List.orderedInsert, assignSimilarity, sortByScoreDesc, scoreKey,
      jobA]
    norm_num [round2, roundHalfEven]
  · norm_num

/-- C3 amended: every score a rescored job receives is clamped into [0, 100]
for every numeric value the backend returns (a response of SCORE: 150 yields
100), and over any run in which the cosine similarity of every job lies in [0, 1]
(cosines are not clamped, so negative similarities pass through) every final
score after the last sort lies in [0, 100]. -/
theorem C3_amended_score_bounds :
    (parseLLMResponse "SCORE: 150").1 = 100 ∧
    (∀ r : Except String String,
        0 ≤ (score_job_with_llm r).1 ∧ (score_job_with_llm r).1 ≤ 100) ∧
    (∀ (cfg : MatcherConfig) (oracle : ℕ → Except String String) (sims : List ℚ)
        (jobs : List JobPosting) (n : ℕ) (out : List JobPosting),
        (∀ s ∈ sims, 0 ≤ s ∧ s ≤ 1) → sims.length = jobs.length →
        match_jobs cfg oracle sims jobs n = Except.ok out →
        ∀ j ∈ out, 0 ≤ scoreKey j ∧ scoreKey j ≤ 100) := by
  refine ⟨?_, score_job_with_llm_fst_bounds, match_jobs_score_bounds⟩
  simp +decide [parseLLMResponse, parseResponseLine, parsePyFloat, pyStrip, natOfDigits,
    isPySpace, splitOnChar, segmentAfterTag, takeUntilSep, scoreTag, explanationTag,
    fallbackExplanation]

/-- C3 amended witness: a concrete run through the third conjunct at cosine
1/2 with rescoring disabled. -/
theorem C3_amended_score_bounds_witness :
    0 ≤ scoreKey { jobA with match_score := some 50 } ∧
      scoreKey { jobA with match_score := some 50 } ≤ 100 := by
  have heval : match_jobs ⟨false⟩ silentOracle [1 / 2] [jobA] 10 =
      Except.ok [{ jobA with match_score := some 50 }] := by
    simp +decide [match_jobs, rankBySimilarity, calculate_similarity_scores, sortDescQ,
      List.insertionSort, List.orderedInsert, assignSimilarity, sortByScoreDesc, scoreKey,
      jobA]
    norm_num [round2, roundHalfEven]
  refine C3_amended_score_bounds.2.2 ⟨false⟩ silentOracle [1 / 2] [jobA] 10
    [{ jobA with match_score := some 50 }] ?_ (by simp) heval
    { jobA with match_score := some 50 } (by simp)
  intro s hs
  simp at hs
  subst hs
  norm_num

/-- C4: the claim states that with rescoring disabled the final score of every
returned job is the percentage of its own similarity and the order is the
similarity-descending order.  Because the stage of C1 discards the pairing,
on the batch [jobA, jobB] with cosines [0, 1] the code instead returns
[jobA scored 100, jobB scored 0]: jobA (own cosine 0, so its own percentage
would be round2 (0 * 100) = 0) carries 100, and the top-similarity job jobB
comes last. -/
theorem C4_rescoring_disabled_scores_mispaired :
    match_jobs ⟨false⟩ silentOracle [0, 1] [jobA, jobB] 10 =
      Except.ok [{ jobA with match_score := some 100 },
                 { jobB with match_score := some 0 }] ∧
    some (100 : ℚ) ≠ some (round2 (0 * 100)) ∧
    jobA.job_title ≠ jobB.job_title := by
  refine ⟨?_, ?_, by decide⟩
  · simp +decide [match_jobs, rankBySimilarity, calculate_similarity_scores, sortDescQ,
      List.insertionSort, List.orderedInsert, assignSimilarity, sortByScoreDesc, scoreKey,
      round2_hundred, round2_zero, jobA, jobB]
  · simp only [ne_eq, Option.some.injEq]
    norm_num [round2, roundHalfEven]

/-- C5: the claim states that rescoring is applied to exactly the first K
jobs of the similarity-ordered sequence.  With cosines [0, 1] for the batch
[jobA, jobB] and K = 1, the code rescored jobA (first in the ranked list only
because the mispaired stage of C1 handed it the score of jobB), while jobB, the
job with the highest similarity, is not rescored at all: its explanation
field is still empty and it keeps a (mispaired) similarity score. -/
theorem C5_rescoring_applied_to_mispaired_top :
    match_jobs ⟨true⟩ oracleScore80 [0, 1] [jobA, jobB] 1 =
      Except.ok [rescoreJob (80, "ok") { jobA with match_score := some 100 },
                 { jobB with match_score := some 0 }] ∧
    jobA ≠ jobB ∧
    ({ jobB with match_score := some 0 } : JobPosting).match_explanation = none := by
  refine ⟨?_, by decide, rfl⟩
  have hsc : score_job_with_llm (Except.ok "SCORE: 80\nEXPLANATION: ok") = (80, "ok") := by
    simp +decide [score_job_with_llm, parseLLMResponse, parseResponseLine, parsePyFloat,
      pyStrip, natOfDigits, isPySpace, splitOnChar, segmentAfterTag, takeUntilSep,
      scoreTag, explanationTag, fallbackExplanation]
  simp +decide [match_jobs, rankBySimilarity, calculate_similarity_scores, sortDescQ,
    List.insertionSort, List.orderedInsert, assignSimilarity, sortByScoreDesc, scoreKey,
    llmRescoreStage, rescoreFrom, oracleScore80, hsc, rescoreJob,
    round2_hundred, round2_zero, jobA, jobB]

/-- C6 counterexample: a backend response with no recognizable score line but
with an explanation line yields score 0 together with the PARSED explanation,
not the fixed fallback text the claim asserts ("explanation equals the fixed
fallback text" fails; the fallbacks are per-field). -/
theorem C6_counterexample_explanation_without_score :
    parseLLMResponse "EXPLANATION: Strong overlap" = (0, "Strong overlap") ∧
    "Strong overlap" ≠ fallbackExplanation := by
  constructor
  · simp +decide [parseLLMResponse, parseResponseLine, parsePyFloat, pyStrip, natOfDigits,
      isPySpace, splitOnChar, segmentAfterTag, takeUntilSep, scoreTag, explanationTag,
      fallbackExplanation]
  · decide

/-- C6 amended: when the response contains no recognizable score line the
score falls back to 0; when additionally no recognizable explanation line is
present the result is exactly (0, fixed fallback text); each field falls back
independently, the stage never fails the batch, and the outcome for every
sibling job (any other position of the rescoring stage) is unaffected by the
response delivered for one job. -/
theorem C6_amended_per_field_fallbacks :
    (∀ txt : String,
        (∀ line ∈ splitOnChar '\n' txt.toList, scoreTag.isPrefixOf (pyStrip line) = false) →
        (parseLLMResponse txt).1 = 0) ∧
    (∀ txt : String,
        (∀ line ∈ splitOnChar '\n' txt.toList, scoreTag.isPrefixOf (pyStrip line) = false) →
        (∀ line ∈ splitOnChar '\n' txt.toList,
          explanationTag.isPrefixOf (pyStrip line) = false) →
        parseLLMResponse txt = (0, fallbackExplanation)) ∧
    (∀ (oracle oracle' : ℕ → Except String String) (k top_n : ℕ)
        (ranked : List JobPosting),
        (∀ i, i ≠ k → oracle i = oracle' i) →
        ∀ i, i ≠ k →
          (llmRescoreStage oracle top_n ranked)[i]? =
            (llmRescoreStage oracle' top_n ranked)[i]?) := by
  refine ⟨?_, ?_, ?_⟩
  · intro txt h
    exact foldl_parseResponseLine_fst_of_no_score _ _ h
  · intro txt hs he
    exact foldl_parseResponseLine_of_no_field _ _ hs he
  · intro oracle oracle' k top_n ranked hagree i hik
    by_cases hi : i < top_n
    · rw [llmRescoreStage_getElem?_lt oracle top_n ranked i hi,
        llmRescoreStage_getElem?_lt oracle' top_n ranked i hi, hagree i hik]
    · unfold llmRescoreStage
      have hl1 : (rescoreFrom oracle 0 (ranked.take top_n)).length =
          (ranked.take top_n).length := rescoreFrom_length oracle 0 _
      have hl2 : (rescoreFrom oracle' 0 (ranked.take top_n)).length =
          (ranked.take top_n).length := rescoreFrom_length oracle' 0 _
      have hle1 : (rescoreFrom oracle 0 (ranked.take top_n)).length ≤ i := by
        rw [hl1]
        simp only [List.length_take]
        omega
      have hle2 : (rescoreFrom oracle' 0 (ranked.take top_n)).length ≤ i := by
        rw [hl2]
        simp only [List.length_take]
        omega
      rw [List.getElem?_append_right hle1, List.getElem?_append_right hle2, hl1, hl2]

/-- C6 amended witness: concrete applications of the amended theorem with all
hypotheses discharged. -/
theorem C6_amended_per_field_fallbacks_witness :
    parseLLMResponse "hello" = (0, fallbackExplanation) ∧
    (llmRescoreStage (fun i => if i = 0 then Except.ok "SCORE: 9" else Except.ok "same") 2
        [jobA, jobB])[1]? =
      (llmRescoreStage (fun i => if i = 0 then Except.error "down" else Except.ok "same") 2
        [jobA, jobB])[1]? := by
  constructor
  · exact C6_amended_per_field_fallbacks.2.1 "hello" (by decide) (by decide)
  · exact C6_amended_per_field_fallbacks.2.2
      (fun i => if i = 0 then Except.ok "SCORE: 9" else Except.ok "same")
      (fun i => if i = 0 then Except.error "down" else Except.ok "same")
      0 2 [jobA, jobB] (fun i hi => by simp [hi]) 1 (by norm_num)

/-- C7: every exception of the downstream call is caught at the job boundary
and converted to score 0 with the fixed failure explanation; the rescoring
stage output at each position below the cutoff depends only on that job and
its own call outcome; and `match_jobs` always returns normally with exactly
one output job per input job, whatever the oracle outcomes are. -/
theorem C7_per_job_failure_contained :
    (∀ e : String, score_job_with_llm (Except.error e) = (0, "Scoring failed")) ∧
    (∀ (oracle : ℕ → Except String String) (top_n : ℕ) (ranked : List JobPosting) (k : ℕ),
        k < top_n →
        (llmRescoreStage oracle top_n ranked)[k]? =
          (ranked[k]?).map (fun j => rescoreJob (score_job_with_llm (oracle k)) j)) ∧
    (∀ (cfg : MatcherConfig) (oracle : ℕ → Except String String) (sims : List ℚ)
        (jobs : List JobPosting) (n : ℕ),
        ∃ out, match_jobs cfg oracle sims jobs n = Except.ok out ∧
          out.length = jobs.length) := by
  refine ⟨fun e => rfl, llmRescoreStage_getElem?_lt, ?_⟩
  intro cfg oracle sims jobs n
  obtain ⟨out, hout⟩ := match_jobs_exists_ok cfg oracle sims jobs n
  exact ⟨out, hout, match_jobs_length cfg oracle sims jobs n out hout⟩

/-- C7 witness: a job whose call errors degrades to score 0 with the fixed
failure explanation, in place, at its own position of the stage. -/
theorem C7_per_job_failure_contained_witness :
    (llmRescoreStage (fun _ => Except.error "boom") 1 [jobA])[0]? =
      some (rescoreJob (0, "Scoring failed") jobA) := by
  have h := C7_per_job_failure_contained.2.1 (fun _ => Except.error "boom") 1 [jobA] 0
    (by norm_num)
  simpa [score_job_with_llm] using h

/-- C8: for every non-empty batch the output of `match_jobs` has the same
length as the input and its job identities (all fields except the two match
fields the engine writes) are a permutation of the input identities: no job
dropped, none duplicated. -/
theorem C8_output_is_permutation :
    ∀ (cfg : MatcherConfig) (oracle : ℕ → Except String String) (sims : List ℚ)
      (jobs : List JobPosting) (n : ℕ) (out : List JobPosting),
      jobs ≠ [] →
      match_jobs cfg oracle sims jobs n = Except.ok out →
      out.length = jobs.length ∧ (out.map stripMatch).Perm (jobs.map stripMatch) :=
  fun cfg oracle sims jobs n out _ hok =>
    ⟨match_jobs_length cfg oracle sims jobs n out hok,
     match_jobs_strip_perm cfg oracle sims jobs n out hok⟩

/-- C8 witness: the permutation property at a concrete one-job run. -/
theorem C8_output_is_permutation_witness :
    ([{ jobA with match_score := some 100 }] : List JobPosting).length = [jobA].length ∧
    (([{ jobA with match_score := some 100 }] : List JobPosting).map stripMatch).Perm
      ([jobA].map stripMatch) := by
  have heval : match_jobs ⟨false⟩ silentOracle [1] [jobA] 10 =
      Except.ok [{ jobA with match_score := some 100 }] := by
    simp +decide [match_jobs, rankBySimilarity, calculate_similarity_scores, sortDescQ,
      List.insertionSort, List.orderedInsert, assignSimilarity, sortByScoreDesc, scoreKey,
      round2_hundred, jobA]
  exact C8_output_is_permutation ⟨false⟩ silentOracle [1] [jobA] 10
    [{ jobA with match_score := some 100 }] (by simp) heval

/-- C9: the final sort is idempotent: a batch already sorted by final score
descending (the `match_score or 0` key of line 303) is returned unchanged by
the FINAL_SORTED step. -/
theorem C9_final_sort_idempotent :
    ∀ l : List JobPosting,
      List.Sorted (fun a b => scoreKey b ≤ scoreKey a) l →
      sortByScoreDesc l = l := by
  intro l h
  exact List.Sorted.insertionSort_eq h

/-- C9 witness: a concrete already-sorted two-job batch. -/
theorem C9_final_sort_idempotent_witness :
    sortByScoreDesc [{ jobA with match_score := some 5 }, { jobB with match_score := some 3 }] =
      [{ jobA with match_score := some 5 }, { jobB with match_score := some 3 }] :=
  C9_final_sort_idempotent _ (by decide)

/-- C10: the output of every `match_jobs` call consists of the input jobs
themselves (the source mutates them in place; in the value model their
identity is everything except the two match fields): the strip-projections are
a permutation of the input ones, and every output job equals one of the input
jobs with only `match_score` and `match_explanation` rewritten; every other
field keeps its input value. -/
theorem C10_only_match_fields_written :
    ∀ (cfg : MatcherConfig) (oracle : ℕ → Except String String) (sims : List ℚ)
      (jobs : List JobPosting) (n : ℕ) (out : List JobPosting),
      match_jobs cfg oracle sims jobs n = Except.ok out →
      (out.map stripMatch).Perm (jobs.map stripMatch) ∧
      ∀ j ∈ out, ∃ j0 ∈ jobs,
        j = { j0 with match_score := j.match_score, match_explanation := j.match_explanation } := by
  intro cfg oracle sims jobs n out hok
  have hperm := match_jobs_strip_perm cfg oracle sims jobs n out hok
  refine ⟨hperm, ?_⟩
  intro j hj
  have hjm : stripMatch j ∈ jobs.map stripMatch :=
    hperm.mem_iff.mp (List.mem_map_of_mem stripMatch hj)
  rcases List.mem_map.mp hjm with ⟨j0, hj0, hj0eq⟩
  exact ⟨j0, hj0, eq_update_of_stripMatch_eq hj0eq.symm⟩

/-- C10 witness: the frame property at a concrete one-job run. -/
theorem C10_only_match_fields_written_witness :
    (([{ jobB with match_score := some 100 }] : List JobPosting).map stripMatch).Perm
      ([jobB].map stripMatch) ∧
    ∀ j ∈ ([{ jobB with match_score := some 100 }] : List JobPosting),
      ∃ j0 ∈ [jobB],
        j = { j0 with match_score := j.match_score, match_explanation := j.match_explanation } := by
  have heval : match_jobs ⟨false⟩ silentOracle [1] [jobB] 10 =
      Except.ok [{ jobB with match_score := some 100 }] := by
    simp +decide [match_jobs, rankBySimilarity, calculate_similarity_scores, sortDescQ,
      List.insertionSort, List.orderedInsert, assignSimilarity, sortByScoreDesc, scoreKey,
      round2_hundred, jobB]
  exact C10_only_match_fields_written ⟨false⟩ silentOracle [1] [jobB] 10
    [{ jobB with match_score := some 100 }] heval
